import Mathlib

/-
Shallow embedding of `src/broadcaster/_backends/redis.py`.

Modelling conventions, fixed once for the whole development:

* Channel names and payloads are Lean `String`s.  The Python code moves them
  through UTF-8 `bytes` and back (`.decode("utf-8")`); since every value the
  program decodes was produced by encoding a `str`, the encode/decode round
  trip is the identity and is modelled as such.
* Redis stream entry ids ("ms-seq" strings, totally ordered, strictly
  increasing per stream, with `"0"` as the before-everything sentinel) are
  modelled as `Nat`, with `0` standing for the `"0"` sentinel.  `XADD` with
  automatic id generation always assigns an id strictly greater than the
  stream's last-generated-id; the model uses `last + 1`.
* Python `dict`s (the cursor mapping `self.streams`, message field tables)
  are modelled as insertion-ordered association lists `List (String × β)`:
  updating an existing key rewrites it in place, a new key is appended,
  which is exactly CPython's insertion-order semantics.  `XREAD` receives
  the dict in that order.
* A Python coroutine that can raise is modelled as returning a value of
  `Except`-like shape; a coroutine that can suspend forever (blocking
  `await`) returns `Option`, `none` meaning "blocks".  When the code
  mutates `self` before raising, the model returns the mutated state next
  to the error, because the mutation survives the exception.
-/

namespace Broadcaster

/-- Python-level exception values that the modelled code can raise.
`nameError s` is the interpreter's `NameError` for an unresolved identifier
`s`; `responseError` is `redis.exceptions.ResponseError` (in particular the
"no such key" reply of `XINFO STREAM`); `attributeError` is raised by
`None.decode(...)`; `connectionError` is `ConnectionError` from the client
library when the store is unreachable. -/
inductive PyError where
  | connectionError
  | responseError
  | nameError (missing : String)
  | attributeError
deriving DecidableEq, Repr

/-- Modelled from the spec: the `Event` value of `broadcaster._base` (the
module is outside the embedded source), "immutable value representing one
delivered message (channel name + payload)"; fields `channel` and `message`,
value equality only. -/
structure Event where
  channel : String
  message : String
deriving DecidableEq, Repr

/-! ### Insertion-ordered association lists (Python `dict` semantics) -/

/-- Lookup of a key, first binding wins (Python `d[k]` / `d.get(k)`). -/
def lk {β : Type} : List (String × β) → String → Option β
  | [], _ => none
  | (k', v) :: rest, k => if k' = k then some v else lk rest k

/-- Python `d[k] = v`: rewrite the binding in place if the key is present,
append it otherwise (insertion order preserved). -/
def setKey {β : Type} : List (String × β) → String → β → List (String × β)
  | [], k, v => [(k, v)]
  | (k', v') :: rest, k, v =>
      if k' = k then (k, v) :: rest else (k', v') :: setKey rest k v

/-- Python `d.pop(k, None)`: drop the binding of `k` if present. -/
def removeKey {β : Type} : List (String × β) → String → List (String × β)
  | [], _ => []
  | (k', v) :: rest, k => if k' = k then rest else (k', v) :: removeKey rest k

/-- Keys of an association list, in order. -/
def keysOf {β : Type} (m : List (String × β)) : List String :=
  m.map Prod.fst

/-! ### The Redis stream store (external collaborator, §6 of the spec) -/

/-- One entry of a Redis stream: a store-assigned id and a field table
(the `fields` dict of the `(id, fields)` pairs `XREAD` returns). -/
structure StreamEntry where
  id : Nat
  fields : List (String × String)
deriving DecidableEq, Repr

/-- The stream store: stream name → entry list in append order.  A stream
exists iff it has a binding (this program never deletes or trims streams,
so an existing stream is non-empty). -/
abbrev StoreModel : Type := List (String × List StreamEntry)

/-- Entries of a stream, the empty list when the stream does not exist. -/
def streamOf (store : StoreModel) (ch : String) : List StreamEntry :=
  (lk store ch).getD []

/-- The stream's `last-generated-id`: the largest id ever assigned, `0` for
a stream with no entries. -/
def lastIdS (s : List StreamEntry) : Nat :=
  s.foldr (fun e acc => max e.id acc) 0

/-- Convenience: `last-generated-id` of a named stream in the store. -/
def lastIdOf (store : StoreModel) (ch : String) : Nat :=
  lastIdS (streamOf store ch)

/-- Model of `XINFO STREAM ch`, restricted to the one field the code reads: `some`
of the `last-generated-id` when the stream exists, `none` standing for the
`ResponseError` reply when it does not. -/
def xinfoStream (store : StoreModel) (ch : String) : Option Nat :=
  (lk store ch).map lastIdS

/-- Model of `XADD ch fields`: append an entry whose id is strictly greater than the
stream's `last-generated-id` (creating the stream if absent). -/
def xadd (store : StoreModel) (ch : String) (fields : List (String × String)) :
    StoreModel :=
  setKey store ch (streamOf store ch ++ [⟨lastIdS (streamOf store ch) + 1, fields⟩])

/-- Model of `XREAD streams COUNT 1`, reduced to what `next_published` consumes of
its reply: scanning the cursor dict in order, the first channel that has an
entry strictly after its cursor, paired with the earliest such entry.
(`XREAD` may also return one entry for each of the later channels; the code
reads only `messages[0]` and `events[0]` and leaves the other channels'
cursors untouched, so those entries are re-served by the next call —
observably the same as this reduction.) -/
def xreadFirst (store : StoreModel) :
    List (String × Nat) → Option (String × StreamEntry)
  | [] => none
  | (ch, cur) :: rest =>
      match (streamOf store ch).find? (fun e => decide (cur < e.id)) with
      | some e => some (ch, e)
      | none => xreadFirst store rest

/-! ### `RedisStreamBackend` (the durable variant) -/

/-- Mutable state of a `RedisStreamBackend` instance: `streams` is the
cursor dict `self.streams` (channel → last-delivered / last-seen id) and
`ready` the `asyncio.Event` `self._ready`. A fresh instance has an empty
dict and an unset gate. -/
structure StreamState where
  streams : List (String × Nat)
  ready : Bool
deriving DecidableEq, Repr

/-- The state of a freshly constructed `RedisStreamBackend`. -/
def StreamState.init : StreamState := ⟨[], false⟩

/-- Model of `RedisStreamBackend.connect`: the body is `pass`, so it succeeds without
touching the store no matter whether the store is reachable (`redis-py`
connections are created lazily by later commands). -/
def RedisStreamBackend.connect (_reachable : Bool) : Except PyError Unit :=
  Except.ok ()

/-- Model of `RedisStreamBackend.subscribe`: query `XINFO STREAM channel` for the
`last-generated-id`; on success record it as the channel's cursor and set
the readiness gate.  When the stream does not exist `xinfo_stream` raises
`ResponseError`, and the interpreter then evaluates the except clause
`except aioredis.exceptions.ResponseError:` — but the module never binds
the name `aioredis` (it imports `from redis import asyncio as redis`), so
a `NameError` escapes instead and neither the cursor dict nor the gate is
touched (both mutations sit after the try/except). -/
def RedisStreamBackend.subscribe (store : StoreModel) (st : StreamState)
    (channel : String) : StreamState × Option PyError :=
  match xinfoStream store channel with
  | some lastId => (⟨setKey st.streams channel lastId, true⟩, none)
  | none => (st, some (PyError.nameError "aioredis"))

/-- Model of `RedisStreamBackend.unsubscribe`: `self.streams.pop(channel, None)`. -/
def RedisStreamBackend.unsubscribe (st : StreamState) (channel : String) :
    StreamState :=
  { st with streams := removeKey st.streams channel }

/-- Model of `RedisStreamBackend.publish`: `XADD channel {"message": message}` —
always exactly the one field `"message"`. -/
def RedisStreamBackend.publish (store : StoreModel) (channel : String)
    (message : String) : StoreModel :=
  xadd store channel [("message", message)]

/-- Model of `RedisStreamBackend.next_published` (with the inlined
`wait_for_messages` loop): wait on the readiness gate, poll `XREAD` over
the cursor dict until an entry arrives (`none` = the call blocks and never
returns), then advance the delivered channel's cursor to the entry's own id
and build the `Event` from the stream name and the entry's `"message"`
field.  `message.get(b"message")` is `None` when the field is absent, and
`None.decode("utf-8")` then raises `AttributeError` — after the cursor was
already advanced (line order: cursor update, then `Event` construction). -/
def RedisStreamBackend.next_published (store : StoreModel) (st : StreamState) :
    Option (Except PyError Event × StreamState) :=
  if st.ready then
    match xreadFirst store st.streams with
    | none => none
    | some (ch, e) =>
        let st' : StreamState := { st with streams := setKey st.streams ch e.id }
        match lk e.fields "message" with
        | some m => some (Except.ok ⟨ch, m⟩, st')
        | none => some (Except.error PyError.attributeError, st')
  else none

/-! ### Trace semantics for a durable backend instance -/

/-- One caller-visible operation on a `RedisStreamBackend` instance. -/
inductive StreamOp where
  | subscribe (ch : String)
  | unsubscribe (ch : String)
  | publish (ch : String) (msg : String)
  | receiveNext
deriving DecidableEq, Repr

/-- World for the durable trace semantics: the shared store plus the
instance state. -/
structure StreamWorld where
  store : StoreModel
  st : StreamState
deriving DecidableEq, Repr

/-- Effect of one operation on the world.  An operation that raises leaves
exactly the mutations that happened before the raise (for `subscribe` on a
missing stream: none); a `receiveNext` that blocks forever performs no
mutation. -/
def streamStep (w : StreamWorld) : StreamOp → StreamWorld
  | .subscribe ch => { w with st := (RedisStreamBackend.subscribe w.store w.st ch).1 }
  | .unsubscribe ch => { w with st := RedisStreamBackend.unsubscribe w.st ch }
  | .publish ch m => { w with store := RedisStreamBackend.publish w.store ch m }
  | .receiveNext =>
      match RedisStreamBackend.next_published w.store w.st with
      | some (_, st') => { w with st := st' }
      | none => w

/-- Run a sequence of operations. -/
def streamRun (w : StreamWorld) (ops : List StreamOp) : StreamWorld :=
  ops.foldl streamStep w

/-- World of a freshly constructed instance over an arbitrary pre-existing
store. -/
def StreamWorld.init (store : StoreModel) : StreamWorld :=
  ⟨store, StreamState.init⟩

/-! ### `RedisBackend` (the transient pub/sub variant) -/

/-- One item yielded by `self._pubsub.listen()`: a dict with a `type`
(`"message"` for data, `"subscribe"` / `"unsubscribe"` for control
acknowledgments), the `channel` it concerns and the `data` payload. -/
structure PubSubMessage where
  type : String
  channel : String
  data : String
deriving DecidableEq, Repr

/-- Phase of the `_pubsub_listener` background task: parked on
`await self._ready.wait()` (`waiting`) or inside the
`async for message in self._pubsub.listen()` loop (`consuming`).
`disconnect` cancellation is out of scope of the embedded claims. -/
inductive ListenerPhase where
  | waiting
  | consuming
deriving DecidableEq, Repr

/-- Mutable state of a `RedisBackend` instance: `ready` is the
`asyncio.Event` `self._ready`, `channels` the pub/sub session's subscribed
channel set (held by `self._pubsub` and the server; a set, modelled as a
duplicate-free list), `feed` the items the connection has received but the
listener has not read yet, `queue` the internal `asyncio.Queue` of decoded
events, and `phase` the listener task's position. -/
structure PubSubState where
  ready : Bool
  channels : List String
  feed : List PubSubMessage
  queue : List Event
  phase : ListenerPhase
deriving DecidableEq, Repr

/-- State of a freshly constructed `RedisBackend`: gate unset, nothing
subscribed, empty feed and queue, listener parked on the gate. -/
def PubSubState.init : PubSubState :=
  ⟨false, [], [], [], ListenerPhase.waiting⟩

/-- Model of `RedisBackend.connect`: `await self._pubsub.connect()` — establishes the
pub/sub connection, raising `ConnectionError` when the store is
unreachable. -/
def RedisBackend.connect (reachable : Bool) : Except PyError Unit :=
  if reachable then Except.ok () else Except.error PyError.connectionError

/-- Add a channel to the session's subscription set (`SUBSCRIBE` on an
already-subscribed channel leaves the set unchanged). -/
def addChannel (chs : List String) (ch : String) : List String :=
  if ch ∈ chs then chs else chs ++ [ch]

/-- Model of `RedisBackend.subscribe`: first `self._ready.set()` (setting an
already-set `asyncio.Event` is a no-op), then
`await self._pubsub.subscribe(channel)`.  `storeOk` says whether that store
command succeeds; when it raises (`false`, e.g. a dead connection), the
gate mutation has already happened and is not rolled back. -/
def RedisBackend.subscribe (st : PubSubState) (channel : String)
    (storeOk : Bool) : PubSubState × Option PyError :=
  let st1 : PubSubState := { st with ready := true }
  if storeOk then
    ({ st1 with channels := addChannel st1.channels channel }, none)
  else
    (st1, some PyError.connectionError)

/-- Model of `RedisBackend.unsubscribe`: `await self._pubsub.unsubscribe(channel)` —
removes the channel from the session's subscription set; the server accepts
`UNSUBSCRIBE` for a channel that is not subscribed, so the call does not
raise and the set is unchanged in that case. -/
def RedisBackend.unsubscribe (st : PubSubState) (channel : String) :
    PubSubState :=
  { st with channels := st.channels.erase channel }

/-- Model of `RedisBackend.publish`: `PUBLISH channel message` on `self._conn`.  The
store forwards one copy to the pub/sub connection iff the session is
subscribed to the channel (otherwise the message is dropped); the copy is
appended to the connection's pending feed whether or not the listener is
currently reading. -/
def RedisBackend.publish (st : PubSubState) (channel : String)
    (message : String) : PubSubState :=
  if channel ∈ st.channels then
    { st with feed := st.feed ++ [⟨"message", channel, message⟩] }
  else st

/-- Body of the `async for` loop of `_pubsub_listener` for one item: if the
item is a data message (`message["type"] == "message"`), decode channel and
payload into an `Event` and put it on the queue; control items are
dropped. -/
def processMessage (queue : List Event) (m : PubSubMessage) : List Event :=
  if m.type = "message" then queue ++ [⟨m.channel, m.data⟩] else queue

/-- The listener loop applied to a whole feed segment. -/
def listenAll (queue : List Event) (ms : List PubSubMessage) : List Event :=
  ms.foldl processMessage queue

/-- One scheduling slice of the `_pubsub_listener` task: while parked on the
gate it enters the `listen()` loop iff the gate is set; while consuming it
reads one pending feed item (if any) and runs the loop body on it. -/
def listenerSlice (st : PubSubState) : PubSubState :=
  match st.phase with
  | .waiting => if st.ready then { st with phase := .consuming } else st
  | .consuming =>
      match st.feed with
      | [] => st
      | m :: rest => { st with feed := rest, queue := processMessage st.queue m }

/-- Model of `RedisBackend.next_published`: `await self._queue.get()` — pop the
oldest queued event, suspending (`none`) when the queue is empty. -/
def RedisBackend.next_published (st : PubSubState) :
    Option (Event × PubSubState) :=
  match st.queue with
  | [] => none
  | e :: rest => some (e, { st with queue := rest })

/-! ### Trace semantics for a transient backend instance -/

/-- One step of a transient-backend trace: a caller operation or a
scheduling slice of the background listener task (the cooperative scheduler
interleaves `listen` steps arbitrarily with caller steps). -/
inductive PubSubOp where
  | subscribe (ch : String)
  | unsubscribe (ch : String)
  | publish (ch : String) (msg : String)
  | listen
deriving DecidableEq, Repr

/-- Effect of one trace step (caller store operations taken as succeeding;
`receive-next` is applied separately via `RedisBackend.next_published`). -/
def pubSubStep (st : PubSubState) : PubSubOp → PubSubState
  | .subscribe ch => (RedisBackend.subscribe st ch true).1
  | .unsubscribe ch => RedisBackend.unsubscribe st ch
  | .publish ch m => RedisBackend.publish st ch m
  | .listen => listenerSlice st

/-- Run a sequence of trace steps. -/
def pubSubRun (st : PubSubState) (ops : List PubSubOp) : PubSubState :=
  ops.foldl pubSubStep st

/-- Returns `true` iff the trace contains no `subscribe` step. -/
def noSubscribe (ops : List PubSubOp) : Bool :=
  ops.all fun op =>
    match op with
    | .subscribe _ => false
    | _ => true

/-! ### Association-list lemmas -/

theorem lk_setKey_self {β : Type} (m : List (String × β)) (k : String) (v : β) :
    lk (setKey m k v) k = some v := by
  induction m with
  | nil => simp [setKey, lk]
  | cons p rest ih =>
      obtain ⟨k', v'⟩ := p
      by_cases h : k' = k
      · subst h; simp [setKey, lk]
      · simp [setKey, lk, h, ih]

theorem keysOf_cons {β : Type} (a : String) (b : β) (m : List (String × β)) :
    keysOf ((a, b) :: m) = a :: keysOf m := rfl

theorem lk_setKey_ne {β : Type} (m : List (String × β)) (k : String) (v : β)
    (k' : String) (h : k' ≠ k) : lk (setKey m k v) k' = lk m k' := by
  induction m with
  | nil => simp [setKey, lk, Ne.symm h]
  | cons p rest ih =>
      obtain ⟨a, b⟩ := p
      by_cases ha : a = k
      · subst ha
        simp [setKey, lk, Ne.symm h]
      · by_cases ha' : a = k'
        · subst ha'; simp [setKey, lk, ha]
        · simp [setKey, lk, ha, ha', ih]

theorem lk_eq_none_of_not_mem {β : Type} (m : List (String × β)) (k : String)
    (h : k ∉ keysOf m) : lk m k = none := by
  induction m with
  | nil => rfl
  | cons p rest ih =>
      obtain ⟨a, b⟩ := p
      rw [keysOf_cons, List.mem_cons] at h
      push_neg at h
      simp [lk, Ne.symm h.1, ih h.2]

theorem removeKey_of_lk_none {β : Type} (m : List (String × β)) (k : String)
    (h : lk m k = none) : removeKey m k = m := by
  induction m with
  | nil => rfl
  | cons p rest ih =>
      obtain ⟨a, b⟩ := p
      by_cases ha : a = k
      · subst ha; simp [lk] at h
      · simp only [lk, if_neg ha] at h
        simp [removeKey, ha, ih h]

theorem lk_removeKey_ne {β : Type} (m : List (String × β)) (k k' : String)
    (h : k' ≠ k) : lk (removeKey m k) k' = lk m k' := by
  induction m with
  | nil => rfl
  | cons p rest ih =>
      obtain ⟨a, b⟩ := p
      by_cases ha : a = k
      · subst ha
        simp [removeKey, lk, Ne.symm h]
      · by_cases ha' : a = k'
        · subst ha'; simp [removeKey, lk, ha]
        · simp [removeKey, lk, ha, ha', ih]

theorem lk_removeKey_self {β : Type} (m : List (String × β)) (k : String)
    (h : (keysOf m).Nodup) : lk (removeKey m k) k = none := by
  induction m with
  | nil => rfl
  | cons p rest ih =>
      obtain ⟨a, b⟩ := p
      rw [keysOf_cons, List.nodup_cons] at h
      by_cases ha : a = k
      · subst ha
        simp only [removeKey, if_pos rfl]
        exact lk_eq_none_of_not_mem rest a h.1
      · simp [removeKey, lk, ha, ih h.2]

theorem mem_keysOf_setKey {β : Type} (m : List (String × β)) (k : String)
    (v : β) (a : String) (h : a ∈ keysOf (setKey m k v)) :
    a ∈ keysOf m ∨ a = k := by
  induction m with
  | nil =>
      rw [show setKey ([] : List (String × β)) k v = [(k, v)] from rfl,
        keysOf_cons] at h
      rcases List.mem_cons.1 h with h | h
      · exact Or.inr h
      · simp [keysOf] at h
  | cons p rest ih =>
      obtain ⟨k', v'⟩ := p
      by_cases hk : k' = k
      · subst hk
        rw [show setKey ((k', v') :: rest) k' v = (k', v) :: rest from by
          simp [setKey], keysOf_cons] at h
        rcases List.mem_cons.1 h with h | h
        · exact Or.inr h
        · exact Or.inl (by rw [keysOf_cons]; exact List.mem_cons_of_mem _ h)
      · rw [show setKey ((k', v') :: rest) k v = (k', v') :: setKey rest k v
          from by simp [setKey, hk], keysOf_cons] at h
        rcases List.mem_cons.1 h with h | h
        · exact Or.inl (by rw [keysOf_cons]; exact List.mem_cons.2 (Or.inl h))
        · rcases ih h with h' | h'
          · exact Or.inl (by rw [keysOf_cons]; exact List.mem_cons_of_mem _ h')
          · exact Or.inr h'

theorem nodup_keysOf_setKey {β : Type} (m : List (String × β)) (k : String)
    (v : β) (h : (keysOf m).Nodup) : (keysOf (setKey m k v)).Nodup := by
  induction m with
  | nil => simp [setKey, keysOf]
  | cons p rest ih =>
      obtain ⟨k', v'⟩ := p
      rw [keysOf_cons, List.nodup_cons] at h
      by_cases hk : k' = k
      · subst hk
        rw [show setKey ((k', v') :: rest) k' v = (k', v) :: rest from by
          simp [setKey], keysOf_cons, List.nodup_cons]
        exact h
      · rw [show setKey ((k', v') :: rest) k v = (k', v') :: setKey rest k v
          from by simp [setKey, hk], keysOf_cons, List.nodup_cons]
        refine ⟨fun hmem => ?_, ih h.2⟩
        rcases mem_keysOf_setKey rest k v k' hmem with h' | h'
        · exact h.1 h'
        · exact hk h'

theorem removeKey_sublist {β : Type} (m : List (String × β)) (k : String) :
    List.Sublist (removeKey m k) m := by
  induction m with
  | nil => simp [removeKey]
  | cons p rest ih =>
      obtain ⟨a, b⟩ := p
      by_cases ha : a = k
      · simp only [removeKey, if_pos ha]
        exact List.sublist_cons_self (a, b) rest
      · simpa [removeKey, ha] using ih.cons₂ (a, b)

theorem nodup_keysOf_removeKey {β : Type} (m : List (String × β)) (k : String)
    (h : (keysOf m).Nodup) : (keysOf (removeKey m k)).Nodup :=
  ((removeKey_sublist m k).map Prod.fst).nodup h

/-! ### Stream-id lemmas -/

theorem lastIdS_cons (e : StreamEntry) (s : List StreamEntry) :
    lastIdS (e :: s) = max e.id (lastIdS s) := rfl

theorem le_lastIdS_of_mem {e : StreamEntry} {s : List StreamEntry}
    (h : e ∈ s) : e.id ≤ lastIdS s := by
  induction s with
  | nil => cases h
  | cons a s ih =>
      rw [lastIdS_cons]
      rcases List.mem_cons.1 h with h | h
      · subst h; omega
      · have := ih h; omega

theorem lastIdS_snoc (s : List StreamEntry) (e : StreamEntry) :
    lastIdS (s ++ [e]) = max (lastIdS s) e.id := by
  induction s with
  | nil => simp [lastIdS]
  | cons a s ih =>
      rw [List.cons_append, lastIdS_cons, lastIdS_cons, ih]
      omega

theorem streamOf_setKey_self (store : StoreModel) (k : String)
    (s : List StreamEntry) : streamOf (setKey store k s) k = s := by
  simp [streamOf, lk_setKey_self]

theorem streamOf_setKey_ne (store : StoreModel) (k : String)
    (s : List StreamEntry) (k' : String) (h : k' ≠ k) :
    streamOf (setKey store k s) k' = streamOf store k' := by
  simp [streamOf, lk_setKey_ne store k s k' h]

theorem lastIdOf_le_xadd (store : StoreModel) (ch ch₁ : String)
    (fields : List (String × String)) :
    lastIdOf store ch ≤ lastIdOf (xadd store ch₁ fields) ch := by
  by_cases h : ch = ch₁
  · subst h
    simp only [lastIdOf, xadd, streamOf_setKey_self, lastIdS_snoc]
    omega
  · simp only [lastIdOf, xadd, streamOf_setKey_ne _ _ _ _ h, le_refl]

theorem xinfoStream_eq_lastIdOf (store : StoreModel) (ch : String)
    (lastId : Nat) (h : xinfoStream store ch = some lastId) :
    lastId = lastIdOf store ch := by
  simp only [xinfoStream, Option.map_eq_some'] at h
  obtain ⟨s, hs, hid⟩ := h
  simp [lastIdOf, streamOf, hs, hid]

/-! ### `xreadFirst` characterization -/

theorem xreadFirst_key_mem (store : StoreModel) (cs : List (String × Nat))
    (ch : String) (e : StreamEntry) (h : xreadFirst store cs = some (ch, e)) :
    ch ∈ keysOf cs := by
  induction cs with
  | nil => simp [xreadFirst] at h
  | cons p rest ih =>
      obtain ⟨a, cur⟩ := p
      rw [keysOf_cons]
      simp only [xreadFirst] at h
      cases hf : (streamOf store a).find? (fun e => decide (cur < e.id)) with
      | some e' =>
          rw [hf] at h
          simp only [Option.some.injEq, Prod.mk.injEq] at h
          exact List.mem_cons.2 (Or.inl h.1.symm)
      | none =>
          rw [hf] at h
          exact List.mem_cons_of_mem _ (ih h)

theorem xreadFirst_lk (store : StoreModel) (cs : List (String × Nat))
    (ch : String) (e : StreamEntry) (hnd : (keysOf cs).Nodup)
    (h : xreadFirst store cs = some (ch, e)) :
    ∃ c, lk cs ch = some c ∧ c < e.id ∧ e ∈ streamOf store ch := by
  induction cs with
  | nil => simp [xreadFirst] at h
  | cons p rest ih =>
      obtain ⟨a, cur⟩ := p
      rw [keysOf_cons, List.nodup_cons] at hnd
      simp only [xreadFirst] at h
      cases hf : (streamOf store a).find? (fun e => decide (cur < e.id)) with
      | some e' =>
          rw [hf] at h
          simp only [Option.some.injEq, Prod.mk.injEq] at h
          obtain ⟨hch, he⟩ := h
          subst hch; subst he
          refine ⟨cur, by simp [lk], ?_, List.mem_of_find?_eq_some hf⟩
          have := List.find?_some hf
          exact of_decide_eq_true this
      | none =>
          rw [hf] at h
          have hmem := xreadFirst_key_mem store rest ch e h
          have hne : a ≠ ch := fun heq => hnd.1 (heq ▸ hmem)
          obtain ⟨c, hc, hlt, hmem'⟩ := ih hnd.2 h
          exact ⟨c, by simp [lk, hne, hc], hlt, hmem'⟩

/-! ### Inversion of `next_published` (durable variant) -/

theorem next_published_eq (store : StoreModel) (st : StreamState) :
    RedisStreamBackend.next_published store st =
      (if st.ready then
        match xreadFirst store st.streams with
        | none => none
        | some (ch, e) =>
            match lk e.fields "message" with
            | some m => some (Except.ok ⟨ch, m⟩,
                { st with streams := setKey st.streams ch e.id })
            | none => some (Except.error PyError.attributeError,
                { st with streams := setKey st.streams ch e.id })
      else none) := rfl

theorem next_published_some (store : StoreModel) (st : StreamState)
    (r : Except PyError Event) (st' : StreamState)
    (h : RedisStreamBackend.next_published store st = some (r, st')) :
    st.ready = true ∧ ∃ ch e, xreadFirst store st.streams = some (ch, e) ∧
      st' = { st with streams := setKey st.streams ch e.id } ∧
      ((∃ m, lk e.fields "message" = some m ∧ r = Except.ok ⟨ch, m⟩) ∨
        (lk e.fields "message" = none ∧ r = Except.error PyError.attributeError)) := by
  obtain ⟨sts, rdy⟩ := st
  rw [next_published_eq] at h
  cases rdy with
  | false => simp at h
  | true =>
      simp only [if_true] at h
      refine ⟨rfl, ?_⟩
      cases hx : xreadFirst store (StreamState.mk sts true).streams with
      | none => rw [hx] at h; simp at h
      | some p =>
          obtain ⟨ch, e⟩ := p
          rw [hx] at h
          dsimp only at h
          refine ⟨ch, e, rfl, ?_⟩
          cases hm : lk e.fields "message" with
          | some m =>
              rw [hm] at h
              simp only [Option.some.injEq, Prod.mk.injEq] at h
              exact ⟨h.2.symm, Or.inl ⟨m, rfl, h.1.symm⟩⟩
          | none =>
              rw [hm] at h
              simp only [Option.some.injEq, Prod.mk.injEq] at h
              exact ⟨h.2.symm, Or.inr ⟨rfl, h.1.symm⟩⟩

/-! ### Reachability invariant of the durable backend -/

/-- Invariant of the durable world: every recorded cursor is bounded by its
stream's last-generated-id, and the cursor dict has no duplicate keys. -/
def StreamInv (w : StreamWorld) : Prop :=
  (∀ ch c, lk w.st.streams ch = some c → c ≤ lastIdOf w.store ch) ∧
  (keysOf w.st.streams).Nodup

theorem streamInv_init (store : StoreModel) :
    StreamInv (StreamWorld.init store) := by
  constructor
  · intro ch c h
    simp [StreamWorld.init, StreamState.init, lk] at h
  · simp [StreamWorld.init, StreamState.init, keysOf]

theorem streamInv_step (w : StreamWorld) (op : StreamOp)
    (h : StreamInv w) : StreamInv (streamStep w op) := by
  obtain ⟨hb, hnd⟩ := h
  cases op with
  | subscribe ch =>
      simp only [streamStep, RedisStreamBackend.subscribe]
      cases hx : xinfoStream w.store ch with
      | none => exact ⟨hb, hnd⟩
      | some lastId =>
          constructor
          · intro ch' c hlk
            by_cases hc : ch' = ch
            · subst hc
              rw [lk_setKey_self] at hlk
              cases hlk
              exact le_of_eq (xinfoStream_eq_lastIdOf w.store ch' _ hx)
            · rw [lk_setKey_ne _ _ _ _ hc] at hlk
              exact hb ch' c hlk
          · exact nodup_keysOf_setKey _ _ _ hnd
  | unsubscribe ch =>
      simp only [streamStep, RedisStreamBackend.unsubscribe]
      constructor
      · intro ch' c hlk
        by_cases hc : ch' = ch
        · subst hc
          rw [lk_removeKey_self _ _ hnd] at hlk
          cases hlk
        · rw [lk_removeKey_ne _ _ _ hc] at hlk
          exact hb ch' c hlk
      · exact nodup_keysOf_removeKey _ _ hnd
  | publish ch m =>
      simp only [streamStep, RedisStreamBackend.publish]
      exact ⟨fun ch' c hlk => (hb ch' c hlk).trans
        (lastIdOf_le_xadd w.store ch' ch _), hnd⟩
  | receiveNext =>
      simp only [streamStep]
      cases hnp : RedisStreamBackend.next_published w.store w.st with
      | none => exact ⟨hb, hnd⟩
      | some p =>
          obtain ⟨r, st'⟩ := p
          obtain ⟨-, ch, e, hx, hst', -⟩ :=
            next_published_some w.store w.st r st' hnp
          subst hst'
          constructor
          · intro ch' c hlk
            by_cases hc : ch' = ch
            · subst hc
              rw [lk_setKey_self] at hlk
              cases hlk
              obtain ⟨c₀, -, -, hmem⟩ := xreadFirst_lk w.store _ _ _ hnd hx
              exact le_lastIdS_of_mem hmem
            · rw [lk_setKey_ne _ _ _ _ hc] at hlk
              exact hb ch' c hlk
          · exact nodup_keysOf_setKey _ _ _ hnd

theorem streamInv_run (w : StreamWorld) (ops : List StreamOp)
    (h : StreamInv w) : StreamInv (streamRun w ops) := by
  induction ops generalizing w with
  | nil => exact h
  | cons op ops ih => exact ih _ (streamInv_step w op h)

/-- Ghost lower bound used to track one cursor value across a trace: `c` is
below the channel's stream bound and below the channel's current cursor (if
any). -/
def CursorLB (w : StreamWorld) (ch : String) (c : Nat) : Prop :=
  c ≤ lastIdOf w.store ch ∧ ∀ c', lk w.st.streams ch = some c' → c ≤ c'

theorem cursorLB_step (w : StreamWorld) (op : StreamOp) (ch : String)
    (c : Nat) (hi : StreamInv w) (hq : CursorLB w ch c) :
    CursorLB (streamStep w op) ch c := by
  obtain ⟨hle, hcur⟩ := hq
  cases op with
  | subscribe ch₁ =>
      simp only [streamStep, RedisStreamBackend.subscribe]
      cases hx : xinfoStream w.store ch₁ with
      | none => exact ⟨hle, hcur⟩
      | some lastId =>
          refine ⟨hle, fun c' hlk => ?_⟩
          by_cases hc : ch = ch₁
          · subst hc
            rw [lk_setKey_self] at hlk
            cases hlk
            exact le_of_le_of_eq hle (xinfoStream_eq_lastIdOf w.store ch _ hx).symm
          · rw [lk_setKey_ne _ _ _ _ hc] at hlk
            exact hcur c' hlk
  | unsubscribe ch₁ =>
      simp only [streamStep, RedisStreamBackend.unsubscribe]
      refine ⟨hle, fun c' hlk => ?_⟩
      by_cases hc : ch = ch₁
      · subst hc
        rw [lk_removeKey_self _ _ hi.2] at hlk
        cases hlk
      · rw [lk_removeKey_ne _ _ _ hc] at hlk
        exact hcur c' hlk
  | publish ch₁ m =>
      simp only [streamStep, RedisStreamBackend.publish]
      exact ⟨hle.trans (lastIdOf_le_xadd w.store ch ch₁ _), hcur⟩
  | receiveNext =>
      simp only [streamStep]
      cases hnp : RedisStreamBackend.next_published w.store w.st with
      | none => exact ⟨hle, hcur⟩
      | some p =>
          obtain ⟨r, st'⟩ := p
          obtain ⟨-, ch₁, e, hx, hst', -⟩ :=
            next_published_some w.store w.st r st' hnp
          subst hst'
          refine ⟨hle, fun c' hlk => ?_⟩
          by_cases hc : ch = ch₁
          · subst hc
            rw [lk_setKey_self] at hlk
            cases hlk
            obtain ⟨c₀, hc₀, hlt, -⟩ := xreadFirst_lk w.store _ _ _ hi.2 hx
            exact (hcur c₀ hc₀).trans (le_of_lt hlt)
          · rw [lk_setKey_ne _ _ _ _ hc] at hlk
            exact hcur c' hlk

theorem cursorLB_run (w : StreamWorld) (ops : List StreamOp) (ch : String)
    (c : Nat) (hi : StreamInv w) (hq : CursorLB w ch c) :
    CursorLB (streamRun w ops) ch c := by
  induction ops generalizing w with
  | nil => exact hq
  | cons op ops ih =>
      exact ih _ (streamInv_step w op hi) (cursorLB_step w op ch c hi hq)

theorem streamRun_append (w : StreamWorld) (a b : List StreamOp) :
    streamRun w (a ++ b) = streamRun (streamRun w a) b := by
  simp [streamRun, List.foldl_append]

/-! ### Transient-backend helper lemmas -/

theorem pubSubRun_noSubscribe (ops : List PubSubOp)
    (h : noSubscribe ops = true) :
    pubSubRun PubSubState.init ops = PubSubState.init := by
  induction ops with
  | nil => rfl
  | cons op ops ih =>
      rw [noSubscribe, List.all_cons, Bool.and_eq_true] at h
      have hstep : pubSubStep PubSubState.init op = PubSubState.init := by
        cases op with
        | subscribe ch => simp at h
        | unsubscribe ch => rfl
        | publish ch m =>
            simp [pubSubStep, RedisBackend.publish, PubSubState.init]
        | listen => rfl
      show pubSubRun (pubSubStep PubSubState.init op) ops = PubSubState.init
      rw [hstep]
      exact ih h.2

theorem listenAll_eq (ms : List PubSubMessage) (q : List Event) :
    listenAll q ms = q ++ (ms.filter (fun m => decide (m.type = "message"))).map
      (fun m => ⟨m.channel, m.data⟩) := by
  induction ms generalizing q with
  | nil => simp [listenAll]
  | cons m ms ih =>
      show listenAll (processMessage q m) ms = _
      rw [ih]
      by_cases ht : m.type = "message"
      · simp [processMessage, ht]
      · simp [processMessage, ht]

/-! ### Claim theorems -/

/-- Claim C1: the claim (and the spec) say that `subscribe(channel)` on the
durable backend, when the channel does not yet exist as a stream, records
cursor `"0"` and never surfaces the not-found condition.  The code is a
slip: the handler written for exactly this purpose,
`except aioredis.exceptions.ResponseError:`, names `aioredis`, which the
module never imports (it imports `from redis import asyncio as redis`), so
the interpreter raises `NameError` while matching the exception and
`subscribe` fails with no cursor recorded.  This theorem evaluates the
embedded code at the failing input: a fresh instance over a store with no
`"news"` stream. -/
theorem C1_subscribe_missing_stream_raises :
    RedisStreamBackend.subscribe [] StreamState.init "news" =
      (StreamState.init, some (PyError.nameError "aioredis")) ∧
    (RedisStreamBackend.subscribe [] StreamState.init "news").2 ≠ none ∧
    lk (RedisStreamBackend.subscribe [] StreamState.init "news").1.streams
      "news" ≠ some 0 := by
  refine ⟨rfl, ?_, ?_⟩ <;> decide

/-- Claim C4: the claim says `connect()` raises `ConnectionError` on both
variants when the store is unreachable.  It fails on the durable variant,
whose `connect` body is `pass`: with the store unreachable it still
succeeds. -/
theorem C4_durable_connect_counterexample :
    RedisStreamBackend.connect false = Except.ok () ∧
    RedisStreamBackend.connect false ≠ Except.error PyError.connectionError :=
  ⟨rfl, fun h => Except.noConfusion h⟩

/-- Claim C4 (amended): the transient variant's `connect()` raises
`ConnectionError` exactly when the store is unreachable; the durable
variant's `connect()` is a no-op that succeeds regardless of reachability
(its connections are created lazily, so unreachability surfaces only on
later operations). -/
theorem C4_connect_amended :
    RedisBackend.connect true = Except.ok () ∧
    RedisBackend.connect false = Except.error PyError.connectionError ∧
    ∀ reachable : Bool, RedisStreamBackend.connect reachable = Except.ok () :=
  ⟨rfl, rfl, fun _ => rfl⟩

/-- Claim C2: whenever the durable backend's `next_published` returns,
having consumed the entry `(ch, e)` that the `XREAD` poll produced, the
state it hands back already maps channel `ch` to the entry's own id (the
cursor assignment on the line before the `return`), and when the result is
an `Event` its channel is that same `ch` — advance-then-return, never
return-then-advance. -/
theorem C2_cursor_advance_then_return :
    ∀ (store : StoreModel) (st : StreamState) (r : Except PyError Event)
      (st' : StreamState) (ch : String) (e : StreamEntry),
      RedisStreamBackend.next_published store st = some (r, st') →
      xreadFirst store st.streams = some (ch, e) →
      lk st'.streams ch = some e.id ∧
      ∀ ev : Event, r = Except.ok ev → ev.channel = ch := by
  intro store st r st' ch e hnp hx
  obtain ⟨-, ch₁, e₁, hx₁, hst', hr⟩ := next_published_some store st r st' hnp
  rw [hx] at hx₁
  simp only [Option.some.injEq, Prod.mk.injEq] at hx₁
  obtain ⟨hch, he⟩ := hx₁
  subst hch; subst he
  subst hst'
  refine ⟨lk_setKey_self _ _ _, ?_⟩
  intro ev hev
  rcases hr with ⟨m, -, hok⟩ | ⟨-, herr⟩
  · rw [hok] at hev
    cases hev
    rfl
  · rw [herr] at hev
    cases hev

/-- Witness for C2 at a concrete input: one stream `"news"` holding the
entry `⟨1, [("message", "hello")]⟩`, cursor dict `[("news", 0)]`, gate set;
`next_published` returns `Event "news" "hello"` and the returned state's
cursor for `"news"` is the entry id `1`. -/
theorem C2_cursor_advance_witness :
    lk (StreamState.mk [("news", 1)] true).streams "news" = some 1 ∧
    ∀ ev : Event,
      (Except.ok ⟨"news", "hello"⟩ : Except PyError Event) = Except.ok ev →
      ev.channel = "news" :=
  C2_cursor_advance_then_return
    [("news", [⟨1, [("message", "hello")]⟩])]
    (StreamState.mk [("news", 0)] true)
    (Except.ok ⟨"news", "hello"⟩)
    (StreamState.mk [("news", 1)] true)
    "news" ⟨1, [("message", "hello")]⟩
    (by rfl) (by rfl)

/-- Claim C3: over any sequence of subscribe / unsubscribe / publish /
receive-next calls on a fresh durable backend instance (over an arbitrary
pre-existing store), (1) the cursor recorded for a given channel never
decreases between any two points of the trace at which it is recorded, and
(2) at any reachable state, a returning `next_published` never consumes an
entry whose id is ≤ the channel's recorded cursor at the time of the
call. -/
theorem C3_cursor_monotone_no_stale_delivery :
    ∀ (store₀ : StoreModel) (ops : List StreamOp),
      (∀ (i j : Nat) (ch : String) (c c' : Nat), i ≤ j →
        lk ((streamRun (StreamWorld.init store₀) (ops.take i)).st.streams) ch
          = some c →
        lk ((streamRun (StreamWorld.init store₀) (ops.take j)).st.streams) ch
          = some c' →
        c ≤ c') ∧
      (∀ (r : Except PyError Event) (st' : StreamState) (ch : String)
          (e : StreamEntry) (c : Nat),
        RedisStreamBackend.next_published
          (streamRun (StreamWorld.init store₀) ops).store
          (streamRun (StreamWorld.init store₀) ops).st = some (r, st') →
        xreadFirst (streamRun (StreamWorld.init store₀) ops).store
          (streamRun (StreamWorld.init store₀) ops).st.streams = some (ch, e) →
        lk (streamRun (StreamWorld.init store₀) ops).st.streams ch = some c →
        c < e.id) := by
  intro store₀ ops
  constructor
  · intro i j ch c c' hij hi hj
    have hInvI : StreamInv (streamRun (StreamWorld.init store₀) (ops.take i)) :=
      streamInv_run _ _ (streamInv_init store₀)
    have hQ : CursorLB (streamRun (StreamWorld.init store₀) (ops.take i)) ch c := by
      refine ⟨hInvI.1 ch c hi, fun c'' h'' => ?_⟩
      rw [hi] at h''
      cases h''
      exact le_refl c
    have htake : ops.take j = ops.take i ++ (ops.drop i).take (j - i) := by
      rw [← List.take_add]
      congr 1
      omega
    rw [htake, streamRun_append] at hj
    exact (cursorLB_run _ _ ch c hInvI hQ).2 c' hj
  · intro r st' ch e c hnp hx hc
    have hInv : StreamInv (streamRun (StreamWorld.init store₀) ops) :=
      streamInv_run _ _ (streamInv_init store₀)
    obtain ⟨c₀, hc₀, hlt, -⟩ := xreadFirst_lk _ _ _ _ hInv.2 hx
    rw [hc] at hc₀
    cases hc₀
    exact hlt

/-- Witness for C3 at concrete inputs: store with stream
`"news" = [⟨1, [("message","old")]⟩]`; the trace
`[subscribe "news", publish "news" "hi", receiveNext]` has cursor `1` after
one step and cursor `2` after all three, giving `1 ≤ 2`; and after
`[subscribe "news", publish "news" "hi"]` the pending poll would return the
entry with id `2` against recorded cursor `1`, giving `1 < 2`. -/
theorem C3_cursor_monotone_witness :
    lk ((streamRun (StreamWorld.init [("news", [⟨1, [("message", "old")]⟩])])
        ([StreamOp.subscribe "news", StreamOp.publish "news" "hi",
          StreamOp.receiveNext].take 1)).st.streams) "news" = some 1 ∧
    lk ((streamRun (StreamWorld.init [("news", [⟨1, [("message", "old")]⟩])])
        ([StreamOp.subscribe "news", StreamOp.publish "news" "hi",
          StreamOp.receiveNext].take 3)).st.streams) "news" = some 2 ∧
    (1 : Nat) ≤ 2 ∧ (1 : Nat) < 2 :=
  ⟨by rfl, by rfl,
    (C3_cursor_monotone_no_stale_delivery
        [("news", [⟨1, [("message", "old")]⟩])]
        [StreamOp.subscribe "news", StreamOp.publish "news" "hi",
          StreamOp.receiveNext]).1
      1 3 "news" 1 2 (by decide) (by rfl) (by rfl),
    (C3_cursor_monotone_no_stale_delivery
        [("news", [⟨1, [("message", "old")]⟩])]
        [StreamOp.subscribe "news", StreamOp.publish "news" "hi"]).2
      (Except.ok ⟨"news", "hi"⟩) (StreamState.mk [("news", 2)] true)
      "news" ⟨2, [("message", "hi")]⟩ 1 (by rfl) (by rfl) (by rfl)⟩

/-- Claim C5: (1) on a trace with no `subscribe`, the transient backend
stays in its initial state — the listener never leaves the gate, so it
never iterates the feed; (2) every `subscribe` call leaves the gate set
(setting an already-set gate changes nothing: the result is `true` either
way); (3) while the listener is parked, one scheduling slice moves it into
consuming exactly when the gate is set; (4) once consuming, no step ever
moves it back — so the transition happens at most once, and by (1)–(3)
it happens exactly at the first slice after the first `subscribe`. -/
theorem C5_listener_readiness_gate :
    (∀ ops : List PubSubOp, noSubscribe ops = true →
      pubSubRun PubSubState.init ops = PubSubState.init) ∧
    (∀ (st : PubSubState) (ch : String) (storeOk : Bool),
      ((RedisBackend.subscribe st ch storeOk).1).ready = true) ∧
    (∀ st : PubSubState, st.phase = ListenerPhase.waiting →
      ((listenerSlice st).phase = ListenerPhase.consuming ↔ st.ready = true)) ∧
    (∀ (st : PubSubState) (op : PubSubOp),
      st.phase = ListenerPhase.consuming →
      (pubSubStep st op).phase = ListenerPhase.consuming) := by
  refine ⟨pubSubRun_noSubscribe, ?_, ?_, ?_⟩
  · intro st ch storeOk
    cases storeOk with
    | false => rfl
    | true => rfl
  · intro st hph
    obtain ⟨rdy, chs, feed, q, ph⟩ := st
    cases hph
    cases rdy with
    | false => simp [listenerSlice]
    | true => simp [listenerSlice]
  · intro st op hph
    obtain ⟨rdy, chs, feed, q, ph⟩ := st
    cases hph
    cases op with
    | subscribe ch =>
        show ((RedisBackend.subscribe _ ch true).1).phase = _
        rfl
    | unsubscribe ch => rfl
    | publish ch m =>
        simp only [pubSubStep, RedisBackend.publish]
        by_cases hmem : ch ∈ chs <;> simp [hmem]
    | listen =>
        simp only [pubSubStep, listenerSlice]
        cases feed with
        | nil => rfl
        | cons m rest => rfl

/-- Witness for C5 at concrete inputs: a subscribe-free trace leaves the
initial state untouched; a subscribe on the initial state sets the gate; a
parked listener with the gate set enters consuming on one slice; a
consuming listener stays consuming across a `listen` step. -/
theorem C5_listener_gate_witness :
    pubSubRun PubSubState.init
      [PubSubOp.publish "news" "hi", PubSubOp.listen] = PubSubState.init ∧
    ((RedisBackend.subscribe PubSubState.init "news" true).1).ready = true ∧
    (listenerSlice ⟨true, ["news"], [], [], ListenerPhase.waiting⟩).phase =
      ListenerPhase.consuming ∧
    (pubSubStep ⟨true, ["news"], [], [], ListenerPhase.consuming⟩
      PubSubOp.listen).phase = ListenerPhase.consuming :=
  ⟨C5_listener_readiness_gate.1 _ (by decide),
    C5_listener_readiness_gate.2.1 PubSubState.init "news" true,
    (C5_listener_readiness_gate.2.2.1
      ⟨true, ["news"], [], [], ListenerPhase.waiting⟩ rfl).mpr rfl,
    C5_listener_readiness_gate.2.2.2
      ⟨true, ["news"], [], [], ListenerPhase.consuming⟩ PubSubOp.listen rfl⟩

/-- Claim C6: the listener loop enqueues an `Event` for a feed item iff the
item's type is `"message"` (control acknowledgments are dropped), decoding
the item's channel and data into the event, preserving feed order into the
FIFO queue; `next_published` pops the oldest queued event and suspends when
the queue is empty. -/
theorem C6_feed_filter_fifo :
    (∀ (q : List Event) (ms : List PubSubMessage),
      listenAll q ms = q ++
        (ms.filter (fun m => decide (m.type = "message"))).map
          (fun m => ⟨m.channel, m.data⟩)) ∧
    (∀ st : PubSubState, st.queue = [] → RedisBackend.next_published st = none) ∧
    (∀ (st : PubSubState) (e : Event) (rest : List Event),
      st.queue = e :: rest →
      RedisBackend.next_published st = some (e, { st with queue := rest })) := by
  refine ⟨fun q ms => listenAll_eq ms q, ?_, ?_⟩
  · intro st h
    unfold RedisBackend.next_published
    rw [h]
  · intro st e rest h
    unfold RedisBackend.next_published
    rw [h]

/-- Witness for C6 at concrete inputs: a feed of one subscribe
acknowledgment and two data messages queues exactly the two data events in
arrival order; popping an empty queue suspends; popping a non-empty queue
returns its head. -/
theorem C6_feed_filter_witness :
    listenAll []
      [⟨"subscribe", "news", "1"⟩, ⟨"message", "news", "a"⟩,
        ⟨"message", "news", "b"⟩] =
      [⟨"news", "a"⟩, ⟨"news", "b"⟩] ∧
    RedisBackend.next_published
      ⟨true, ["news"], [], [], ListenerPhase.consuming⟩ = none ∧
    RedisBackend.next_published
      ⟨true, ["news"], [], [⟨"news", "a"⟩, ⟨"news", "b"⟩],
        ListenerPhase.consuming⟩ =
      some (⟨"news", "a"⟩,
        ⟨true, ["news"], [], [⟨"news", "b"⟩], ListenerPhase.consuming⟩) :=
  ⟨by rw [C6_feed_filter_fifo.1 [] _]; rfl,
    C6_feed_filter_fifo.2.1 _ rfl,
    C6_feed_filter_fifo.2.2 _ ⟨"news", "a"⟩ [⟨"news", "b"⟩] rfl⟩

/-- Claim C7: `unsubscribe` on a channel that is not subscribed raises
nothing in either variant (`dict.pop` with a default, and the store accepts
`UNSUBSCRIBE` for unknown channels — both modelled as total functions) and
leaves the backend state unchanged; in particular the durable cursor dict
is identical before and after. -/
theorem C7_unsubscribe_noop :
    (∀ (st : StreamState) (ch : String), lk st.streams ch = none →
      RedisStreamBackend.unsubscribe st ch = st) ∧
    (∀ (st : PubSubState) (ch : String), ch ∉ st.channels →
      RedisBackend.unsubscribe st ch = st) := by
  constructor
  · intro st ch h
    obtain ⟨streams, rdy⟩ := st
    simp only [RedisStreamBackend.unsubscribe]
    rw [removeKey_of_lk_none _ _ h]
  · intro st ch h
    obtain ⟨rdy, chs, feed, q, ph⟩ := st
    simp only [RedisBackend.unsubscribe]
    rw [List.erase_of_not_mem h]

/-- Witness for C7 at concrete inputs: unsubscribing `"sport"` while only
`"news"` is subscribed leaves both variants' states unchanged. -/
theorem C7_unsubscribe_witness :
    RedisStreamBackend.unsubscribe (StreamState.mk [("news", 3)] true)
      "sport" = StreamState.mk [("news", 3)] true ∧
    RedisBackend.unsubscribe
      ⟨true, ["news"], [], [], ListenerPhase.consuming⟩ "sport" =
      ⟨true, ["news"], [], [], ListenerPhase.consuming⟩ :=
  ⟨C7_unsubscribe_noop.1 (StreamState.mk [("news", 3)] true) "sport" (by decide),
    C7_unsubscribe_noop.2 ⟨true, ["news"], [], [], ListenerPhase.consuming⟩
      "sport" (by decide)⟩

/-- Claim C8: the claim says re-subscription on the durable backend causes
no loss of deliveries relative to a single subscription.  False: the
stream `"news"` already holds entry 1; after `subscribe`, `publish "hi"`
(entry 2), a single subscription delivers `Event "news" "hi"`, but
repeating `subscribe` before receiving resets the cursor to the stream's
last-generated-id 2, so the same `next_published` call blocks forever —
entry 2 is never delivered (lost). -/
theorem C8_resubscribe_loss_counterexample :
    RedisStreamBackend.next_published
      (streamRun (StreamWorld.init [("news", [⟨1, [("message", "old")]⟩])])
        [StreamOp.subscribe "news", StreamOp.publish "news" "hi"]).store
      (streamRun (StreamWorld.init [("news", [⟨1, [("message", "old")]⟩])])
        [StreamOp.subscribe "news", StreamOp.publish "news" "hi"]).st =
      some (Except.ok ⟨"news", "hi"⟩, StreamState.mk [("news", 2)] true) ∧
    RedisStreamBackend.next_published
      (streamRun (StreamWorld.init [("news", [⟨1, [("message", "old")]⟩])])
        [StreamOp.subscribe "news", StreamOp.publish "news" "hi",
          StreamOp.subscribe "news"]).store
      (streamRun (StreamWorld.init [("news", [⟨1, [("message", "old")]⟩])])
        [StreamOp.subscribe "news", StreamOp.publish "news" "hi",
          StreamOp.subscribe "news"]).st = none :=
  ⟨rfl, rfl⟩

/-- Claim C8 (amended): on the transient backend repeated `subscribe` is a
delivery no-op — subscribing `"news"` twice then publishing once queues
exactly one event, which `next_published` returns once and then suspends;
on the durable backend, re-subscribing a channel whose stream exists does
not raise but resets (refreshes) the cursor to the stream's current
last-generated-id, which can skip entries appended since the previous
cursor that were not yet delivered — re-subscription may lose (never
duplicate) deliveries relative to a single subscription. -/
theorem C8_subscribe_amended :
    pubSubRun PubSubState.init
      [PubSubOp.subscribe "news", PubSubOp.subscribe "news", PubSubOp.listen,
        PubSubOp.publish "news" "hi", PubSubOp.listen] =
      ⟨true, ["news"], [], [⟨"news", "hi"⟩], ListenerPhase.consuming⟩ ∧
    RedisBackend.next_published
      ⟨true, ["news"], [], [⟨"news", "hi"⟩], ListenerPhase.consuming⟩ =
      some (⟨"news", "hi"⟩, ⟨true, ["news"], [], [], ListenerPhase.consuming⟩) ∧
    RedisBackend.next_published
      ⟨true, ["news"], [], [], ListenerPhase.consuming⟩ = none ∧
    ∀ (store : StoreModel) (st : StreamState) (ch : String)
      (s : List StreamEntry), lk store ch = some s →
      RedisStreamBackend.subscribe store st ch =
        (StreamState.mk (setKey st.streams ch (lastIdS s)) true, none) := by
  refine ⟨rfl, rfl, rfl, ?_⟩
  intro store st ch s h
  simp [RedisStreamBackend.subscribe, xinfoStream, h]

/-- Witness for C8 (amended) at a concrete input: re-subscribing `"news"`
over a store whose `"news"` stream holds the single entry
`⟨1, [("message", "old")]⟩` succeeds without error and records cursor 1. -/
theorem C8_subscribe_amended_witness :
    RedisStreamBackend.subscribe [("news", [⟨1, [("message", "old")]⟩])]
      (StreamState.mk [("news", 1)] true) "news" =
      (StreamState.mk (setKey [("news", 1)] "news"
        (lastIdS [⟨1, [("message", "old")]⟩])) true, none) :=
  C8_subscribe_amended.2.2.2 [("news", [⟨1, [("message", "old")]⟩])]
    (StreamState.mk [("news", 1)] true) "news" [⟨1, [("message", "old")]⟩]
    (by rfl)

/-- Claim C9: in the transient backend's `subscribe`, `self._ready.set()`
runs before `await self._pubsub.subscribe(channel)`; hence after any call
— also one in which the store command raises — the gate is set, the state
mutation is exactly the gate (the channel set is untouched on failure),
and a parked listener is now permitted to start on its next slice. -/
theorem C9_gate_not_rolled_back :
    ∀ (st : PubSubState) (ch : String) (storeOk : Bool),
      ((RedisBackend.subscribe st ch storeOk).1).ready = true ∧
      (RedisBackend.subscribe st ch false).1 = { st with ready := true } ∧
      (RedisBackend.subscribe st ch false).2 = some PyError.connectionError ∧
      (st.phase = ListenerPhase.waiting →
        (listenerSlice ((RedisBackend.subscribe st ch storeOk).1)).phase =
          ListenerPhase.consuming) := by
  intro st ch storeOk
  obtain ⟨rdy, chs, feed, q, ph⟩ := st
  refine ⟨?_, rfl, rfl, ?_⟩
  · cases storeOk with
    | false => rfl
    | true => rfl
  · intro hph
    cases hph
    cases storeOk with
    | false => rfl
    | true => rfl

/-- Witness for C9 at a concrete input: subscribing `"news"` on a fresh
instance with the store command failing still sets the gate, changes
nothing else, surfaces `ConnectionError`, and leaves the parked listener
able to enter consuming. -/
theorem C9_gate_witness :
    ((RedisBackend.subscribe PubSubState.init "news" false).1).ready = true ∧
    (RedisBackend.subscribe PubSubState.init "news" false).1 =
      { PubSubState.init with ready := true } ∧
    (RedisBackend.subscribe PubSubState.init "news" false).2 =
      some PyError.connectionError ∧
    (listenerSlice ((RedisBackend.subscribe PubSubState.init "news" false).1)).phase =
      ListenerPhase.consuming :=
  ⟨(C9_gate_not_rolled_back PubSubState.init "news" false).1,
    (C9_gate_not_rolled_back PubSubState.init "news" false).2.1,
    (C9_gate_not_rolled_back PubSubState.init "news" false).2.2.1,
    (C9_gate_not_rolled_back PubSubState.init "news" false).2.2.2 rfl⟩

/-- Claim C10: the durable `publish` appends exactly the one field
`"message"`, so the payload lookup in `next_published` succeeds for every
entry this backend published, and the returned `Event` carries the (decoded)
stream name and field value; for an entry lacking a `"message"` field the
`dict.get` yields `None` and `next_published` raises (`None.decode` →
`AttributeError`) instead of returning an `Event`. -/
theorem C10_message_field_exclusive :
    (∀ (store : StoreModel) (ch m : String),
      streamOf (RedisStreamBackend.publish store ch m) ch =
        streamOf store ch ++
          [⟨lastIdS (streamOf store ch) + 1, [("message", m)]⟩] ∧
      lk [("message", m)] "message" = some m) ∧
    (∀ (store : StoreModel) (st : StreamState) (r : Except PyError Event)
        (st' : StreamState) (ch : String) (e : StreamEntry),
      RedisStreamBackend.next_published store st = some (r, st') →
      xreadFirst store st.streams = some (ch, e) →
      (∀ m, lk e.fields "message" = some m → r = Except.ok ⟨ch, m⟩) ∧
      (lk e.fields "message" = none →
        r = Except.error PyError.attributeError)) := by
  constructor
  · intro store ch m
    exact ⟨by simp [RedisStreamBackend.publish, xadd, streamOf_setKey_self],
      by simp [lk]⟩
  · intro store st r st' ch e hnp hx
    obtain ⟨-, ch₁, e₁, hx₁, -, hr⟩ := next_published_some store st r st' hnp
    rw [hx] at hx₁
    simp only [Option.some.injEq, Prod.mk.injEq] at hx₁
    obtain ⟨hch, he⟩ := hx₁
    subst hch; subst he
    constructor
    · intro m hm
      rcases hr with ⟨m₀, hm₀, hok⟩ | ⟨hnone, -⟩
      · rw [hm] at hm₀
        cases hm₀
        exact hok
      · rw [hm] at hnone
        cases hnone
    · intro hnone
      rcases hr with ⟨m₀, hm₀, -⟩ | ⟨-, herr⟩
      · rw [hnone] at hm₀
        cases hm₀
      · exact herr

/-- Witness for C10 at concrete inputs: a published entry's field table is
`[("message", "hi")]` and is delivered as `Event "news" "hi"`; an entry
with an empty field table makes `next_published` fail with
`AttributeError` rather than return an `Event`. -/
theorem C10_message_field_witness :
    streamOf (RedisStreamBackend.publish [] "news" "hi") "news" =
      [⟨1, [("message", "hi")]⟩] ∧
    (Except.ok ⟨"news", "hi"⟩ : Except PyError Event) =
      Except.ok ⟨"news", "hi"⟩ ∧
    (Except.error PyError.attributeError : Except PyError Event) =
      Except.error PyError.attributeError :=
  ⟨by rw [(C10_message_field_exclusive.1 [] "news" "hi").1]; rfl,
    ((C10_message_field_exclusive.2 [("news", [⟨1, [("message", "hi")]⟩])]
        (StreamState.mk [("news", 0)] true) (Except.ok ⟨"news", "hi"⟩)
        (StreamState.mk [("news", 1)] true) "news" ⟨1, [("message", "hi")]⟩
        (by rfl) (by rfl)).1 "hi" (by rfl)),
    ((C10_message_field_exclusive.2 [("bad", [⟨1, []⟩])]
        (StreamState.mk [("bad", 0)] true)
        (Except.error PyError.attributeError)
        (StreamState.mk [("bad", 1)] true) "bad" ⟨1, []⟩
        (by rfl) (by rfl)).2 (by rfl))⟩

end Broadcaster
